import Mathlib

/-!
Shallow embedding of the partial-witness distribution actor
(`chain/client/src/stateless_validation/partial_witness/partial_witness_actor.rs`).

The actor's handlers are modelled as pure functions from an environment
(the external collaborators: signer provider, epoch manager, part validator,
witness compressor, reconstruction-tracker store) and the inbound message to
a pair of (observable effects, result).  Effects record, in call order, the
network requests dispatched, the parts stored into the reconstruction
tracker, the send-records created in the send-ack tracker, and how many
compression / encoding / validation calls were made, so that frame claims
("no network message", "no compression") are statable.
-/

namespace PartialWitnessModel

/-- Raw byte buffers are modelled as lists of naturals. -/
abbrev Bytes := List Nat

/-- Validator account identities (`AccountId`), modelled as naturals. -/
abbrev AccountId := Nat

abbrev EpochId := Nat
abbrev ShardId := Nat
abbrev BlockHeight := Nat

/-- The fields of `ShardChunkHeader` the actor reads: `shard_id()`,
`height_created()` and `chunk_hash()`. -/
structure ShardChunkHeader where
  shard_id : ShardId
  height_created : BlockHeight
  chunk_hash : Nat
deriving DecidableEq

/-- Model of `ChunkStateWitness`: the full witness; the actor only reads its chunk
header (for metrics labels) and hands the rest to the compressor. -/
structure ChunkStateWitness where
  chunk_header : ShardChunkHeader
  data : Bytes
deriving DecidableEq

/-- Model of `EncodedChunkStateWitness`: the compressed byte buffer. -/
structure EncodedChunkStateWitness where
  bytes : Bytes
deriving DecidableEq

/-- Model of `EncodedChunkStateWitness::size_bytes`. -/
def EncodedChunkStateWitness.size_bytes (w : EncodedChunkStateWitness) : Nat :=
  w.bytes.length

/-- Model of `ChunkProductionKey { shard_id, epoch_id, height_created }`. -/
structure ChunkProductionKey where
  shard_id : ShardId
  epoch_id : EpochId
  height_created : BlockHeight
deriving DecidableEq

/-- Model of `PartialEncodedStateWitness`: production-key fields, part ordinal, part
bytes, total encoded length, and the producer signature (cryptography is out
of scope, so the signature is modelled as the signing validator's identity). -/
structure PartialEncodedStateWitness where
  epoch_id : EpochId
  shard_id : ShardId
  height_created : BlockHeight
  part_ord : Nat
  part : Bytes
  encoded_length : Nat
  signature : AccountId
deriving DecidableEq

/-- Model of `PartialEncodedStateWitness::new(epoch_id, chunk_header, part_ord, part,
encoded_length, signer)`: the shard id and height are taken from the header. -/
def PartialEncodedStateWitness.new (epoch_id : EpochId) (chunk_header : ShardChunkHeader)
    (part_ord : Nat) (part : Bytes) (encoded_length : Nat) (signer : AccountId) :
    PartialEncodedStateWitness :=
  { epoch_id := epoch_id
    shard_id := chunk_header.shard_id
    height_created := chunk_header.height_created
    part_ord := part_ord
    part := part
    encoded_length := encoded_length
    signature := signer }

/-- Model of `PartialEncodedStateWitness::chunk_production_key`. -/
def PartialEncodedStateWitness.chunk_production_key (pw : PartialEncodedStateWitness) :
    ChunkProductionKey :=
  { shard_id := pw.shard_id, epoch_id := pw.epoch_id, height_created := pw.height_created }

/-- The error kinds the handlers surface (`near_chain::Error` as used here).
`Panic` models a Rust panic (`zip_eq` length mismatch or `Option::unwrap` of
`None`), which aborts rather than returning. -/
inductive Error where
  | NotAValidator (ctx : String)
  | EpochError
  | SerializationError
  | ValidationError
  | TrackerError
  | Panic
deriving DecidableEq

/-- The two network request kinds the actor dispatches
(`NetworkRequests::PartialEncodedStateWitness` carrying the
(validator, part) batch, and
`NetworkRequests::PartialEncodedStateWitnessForward` carrying the target
validator list and the part). -/
inductive NetworkRequests where
  | PartialEncodedStateWitness (batch : List (AccountId × PartialEncodedStateWitness))
  | PartialEncodedStateWitnessForward (targets : List AccountId)
      (pw : PartialEncodedStateWitness)
deriving DecidableEq

/-- Observable effects of one handler invocation, in call order per field. -/
structure Effects where
  sends : List NetworkRequests := []
  stores : List PartialEncodedStateWitness := []
  records : List (Nat × Nat × Nat) := []
  compressions : Nat := 0
  encodings : Nat := 0
  validations : List PartialEncodedStateWitness := []
deriving DecidableEq

def Effects.append (a b : Effects) : Effects :=
  { sends := a.sends ++ b.sends
    stores := a.stores ++ b.stores
    records := a.records ++ b.records
    compressions := a.compressions + b.compressions
    encodings := a.encodings + b.encodings
    validations := a.validations ++ b.validations }

instance : Append Effects := ⟨Effects.append⟩

/-- The external collaborators the actor consults, per handler invocation:
the mutable validator signer, the epoch manager
(`get_chunk_validator_assignments(..).ordered_chunk_validators()` and
`get_chunk_producer`), the part validator
(`validate_partial_encoded_state_witness`), the witness compressor
(`EncodedChunkStateWitness::encode`), and the reconstruction tracker's
`store_partial_encoded_state_witness` outcome. -/
structure Env where
  my_signer : Option AccountId
  get_chunk_validator_assignments :
    EpochId → ShardId → BlockHeight → Except Error (List AccountId)
  get_chunk_producer : EpochId → BlockHeight → ShardId → Except Error AccountId
  validate_partial_encoded_state_witness :
    PartialEncodedStateWitness → AccountId → Except Error Bool
  encode_witness : ChunkStateWitness → Except Error EncodedChunkStateWitness
  store_partial_encoded_state_witness : PartialEncodedStateWitness → Except Error Unit

/-- One erasure-coded shard: the bytes of the buffer at positions congruent
to `i` modulo `n`. -/
def stripe (n i : Nat) (bs : Bytes) : Bytes :=
  (bs.enum.filter (fun p => p.fst % n == i)).map (fun p => p.snd)

/-- The `n` shards of a buffer. -/
def encodeParts (n : Nat) (w : EncodedChunkStateWitness) : List Bytes :=
  (List.range n).map (fun i => stripe n i w.bytes)

/-- Modelled from the spec: the Reed-Solomon encoder obtained from
`WitnessEncoderCache` (`super::encoding`, not part of this file).  Per the
spec, `encode(bytes)` returns a sequence of exactly `n` optional byte
buffers, every one present (never missing) at encode time, together with the
encoded length. -/
def encode (n : Nat) (w : EncodedChunkStateWitness) : List (Option Bytes) × Nat :=
  ((encodeParts n w).map some, w.bytes.length)

/-- Model of `itertools::zip_eq`: zips two lists, failing (a Rust panic) when the
lengths differ. -/
def zipEq : List α → List β → Option (List (α × β))
  | [], [] => some []
  | a :: as_, b :: bs => (zipEq as_ bs).map (fun l => (a, b) :: l)
  | _, _ => none

/-- The `enumerate().map(...)` body of `generate_state_witness_parts`:
builds one signed `PartialEncodedStateWitness` per (validator, part) pair,
numbering parts from `part_ord`; `part.unwrap()` of a missing part is a
panic. -/
def buildTuples (epoch_id : EpochId) (chunk_header : ShardChunkHeader)
    (encoded_length : Nat) (signer : AccountId) :
    Nat → List (AccountId × Option Bytes) →
    Except Error (List (AccountId × PartialEncodedStateWitness))
  | _, [] => .ok []
  | _, (_, none) :: _ => .error .Panic
  | part_ord, (chunk_validator, some part) :: rest =>
    match buildTuples epoch_id chunk_header encoded_length signer (part_ord + 1) rest with
    | .error e => .error e
    | .ok l => .ok ((chunk_validator,
        PartialEncodedStateWitness.new epoch_id chunk_header part_ord part
          encoded_length signer) :: l)

/-- Closed form of `buildTuples` on fully present parts: one signed part per
(validator, bytes) pair, ordinals counting up from the first argument. -/
def pairParts (epoch_id : EpochId) (chunk_header : ShardChunkHeader)
    (encoded_length : Nat) (signer : AccountId) :
    Nat → List (AccountId × Bytes) → List (AccountId × PartialEncodedStateWitness)
  | _, [] => []
  | part_ord, (v, b) :: rest =>
    (v, PartialEncodedStateWitness.new epoch_id chunk_header part_ord b
        encoded_length signer) ::
      pairParts epoch_id chunk_header encoded_length signer (part_ord + 1) rest

/-- Model of `generate_state_witness_parts`: look up the ordered chunk validators,
encode the witness into one part per validator, and pair part ordinal `i`
with the `i`-th validator. -/
def generate_state_witness_parts (env : Env) (epoch_id : EpochId)
    (chunk_header : ShardChunkHeader) (witness_bytes : EncodedChunkStateWitness)
    (signer : AccountId) :
    Effects × Except Error (List (AccountId × PartialEncodedStateWitness)) :=
  match env.get_chunk_validator_assignments epoch_id chunk_header.shard_id
      chunk_header.height_created with
  | .error e => ({}, .error e)
  | .ok chunk_validators =>
    let pr := encode chunk_validators.length witness_bytes
    match zipEq chunk_validators pr.fst with
    | none => ({ encodings := 1 }, .error .Panic)
    | some zipped =>
      ({ encodings := 1 }, buildTuples epoch_id chunk_header pr.snd signer 0 zipped)

/-- Model of `Iterator::position`: index of the first element satisfying `p`. -/
def position (p : α → Bool) : List α → Option Nat
  | [] => none
  | a :: l => if p a then some 0 else (position p l).map (· + 1)

/-- Model of `Vec::swap_remove(i)`: remove the element at `i` by moving the last
element into its place. -/
def swapRemove (l : List α) (i : Nat) : List α :=
  match l.getLast? with
  | none => []
  | some last => (l.set i last).dropLast

/-- Model of `forward_state_witness_part`: look up the chunk producer and the ordered
chunk validators for the part's production key, filter out the current
validator and the chunk producer, and dispatch one forward request to the
remaining targets. -/
def forward_state_witness_part (env : Env) (partial_witness : PartialEncodedStateWitness)
    (signer : AccountId) : Effects × Except Error Unit :=
  let key := partial_witness.chunk_production_key
  match env.get_chunk_producer key.epoch_id key.height_created key.shard_id with
  | .error e => ({}, .error e)
  | .ok chunk_producer =>
    match env.get_chunk_validator_assignments key.epoch_id key.shard_id
        key.height_created with
    | .error e => ({}, .error e)
    | .ok ordered_chunk_validators =>
      let target_chunk_validators := ordered_chunk_validators.filter
        (fun validator => validator != signer && validator != chunk_producer)
      ({ sends := [NetworkRequests.PartialEncodedStateWitnessForward
          target_chunk_validators partial_witness] }, .ok ())

/-- Model of `send_state_witness_parts`: generate the (validator, part) tuples; if the
local signer owns one of the parts, swap-remove that pair from the batch and
forward it instead; record the witness send keyed by chunk hash with the
remaining recipient count; dispatch the remaining batch. -/
def send_state_witness_parts (env : Env) (epoch_id : EpochId)
    (chunk_header : ShardChunkHeader) (witness_bytes : EncodedChunkStateWitness)
    (signer : AccountId) : Effects × Except Error Unit :=
  let chunk_hash := chunk_header.chunk_hash
  let witness_size_in_bytes := witness_bytes.size_bytes
  match generate_state_witness_parts env epoch_id chunk_header witness_bytes signer with
  | (genEff, .error e) => (genEff, .error e)
  | (genEff, .ok validator_witness_tuple) =>
    match position (fun p => p.fst == signer) validator_witness_tuple with
    | some index =>
      match validator_witness_tuple.get? index with
      | none => (genEff, .error .Panic)
      | some selfPair =>
        let remaining := swapRemove validator_witness_tuple index
        match forward_state_witness_part env selfPair.snd signer with
        | (fwdEff, .error e) => (genEff ++ fwdEff, .error e)
        | (fwdEff, .ok _) =>
          (genEff ++ fwdEff ++
            { records := [(chunk_hash, witness_size_in_bytes, remaining.length)]
              sends := [NetworkRequests.PartialEncodedStateWitness remaining] }, .ok ())
    | none =>
      (genEff ++
        { records := [(chunk_hash, witness_size_in_bytes, validator_witness_tuple.length)]
          sends := [NetworkRequests.PartialEncodedStateWitness validator_witness_tuple] },
        .ok ())

/-- Model of `compress_witness`: serialize and compress the witness
(`EncodedChunkStateWitness::encode`), recording size/timing metrics. -/
def compress_witness (env : Env) (witness : ChunkStateWitness) :
    Effects × Except Error EncodedChunkStateWitness :=
  ({ compressions := 1 }, env.encode_witness witness)

/-- Model of `DistributeStateWitnessRequest`. -/
structure DistributeStateWitnessRequest where
  epoch_id : EpochId
  chunk_header : ShardChunkHeader
  state_witness : ChunkStateWitness

/-- Model of `handle_distribute_state_witness_request`: require a local signer, then
compress and send the state witness parts. -/
def handle_distribute_state_witness_request (env : Env)
    (msg : DistributeStateWitnessRequest) : Effects × Except Error Unit :=
  match env.my_signer with
  | none => ({}, .error (.NotAValidator "distribute state witness"))
  | some signer =>
    match compress_witness env msg.state_witness with
    | (eff, .error e) => (eff, .error e)
    | (eff, .ok witness_bytes) =>
      let sr := send_state_witness_parts env msg.epoch_id msg.chunk_header
        witness_bytes signer
      (eff ++ sr.fst, sr.snd)

/-- Model of `handle_partial_encoded_state_witness`: require a local signer, validate
the part; on `true` store it and forward it to the other chunk validators. -/
def handle_partial_encoded_state_witness (env : Env)
    (partial_witness : PartialEncodedStateWitness) : Effects × Except Error Unit :=
  match env.my_signer with
  | none => ({}, .error (.NotAValidator "handle partial encoded state witness"))
  | some signer =>
    match env.validate_partial_encoded_state_witness partial_witness signer with
    | .error e => ({ validations := [partial_witness] }, .error e)
    | .ok false => ({ validations := [partial_witness] }, .ok ())
    | .ok true =>
      let preEff : Effects := { validations := [partial_witness]
                                stores := [partial_witness] }
      match env.store_partial_encoded_state_witness partial_witness with
      | .error e => (preEff, .error e)
      | .ok _ =>
        let fr := forward_state_witness_part env partial_witness signer
        (preEff ++ fr.fst, fr.snd)

/-- Model of `handle_partial_encoded_state_witness_forward`: require a local signer,
validate the part; on `true` store it.  No forwarding. -/
def handle_partial_encoded_state_witness_forward (env : Env)
    (partial_witness : PartialEncodedStateWitness) : Effects × Except Error Unit :=
  match env.my_signer with
  | none => ({}, .error (.NotAValidator "handle partial encoded state witness forward"))
  | some signer =>
    match env.validate_partial_encoded_state_witness partial_witness signer with
    | .error e => ({ validations := [partial_witness] }, .error e)
    | .ok false => ({ validations := [partial_witness] }, .ok ())
    | .ok true =>
      let preEff : Effects := { validations := [partial_witness]
                                stores := [partial_witness] }
      match env.store_partial_encoded_state_witness partial_witness with
      | .error e => (preEff, .error e)
      | .ok _ => (preEff, .ok ())

instance {ε α : Type} [DecidableEq ε] [DecidableEq α] : DecidableEq (Except ε α) :=
  fun x y =>
  match x, y with
  | .ok a, .ok b =>
    if h : a = b then .isTrue (by rw [h]) else
      .isFalse (fun hc => h (by cases hc; rfl))
  | .error a, .error b =>
    if h : a = b then .isTrue (by rw [h]) else
      .isFalse (fun hc => h (by cases hc; rfl))
  | .ok _, .error _ => .isFalse (fun hc => Except.noConfusion hc)
  | .error _, .ok _ => .isFalse (fun hc => Except.noConfusion hc)

/-! Concrete fixtures used to instantiate the theorems below on explicit
inputs. -/

/-- A chunk header for shard 1 at height 10. -/
def hdrA : ShardChunkHeader := { shard_id := 1, height_created := 10, chunk_hash := 77 }

/-- An environment whose local signer (validator 2) is one of the four
assigned chunk validators and is also the chunk producer; the part validator
accepts every part whose ordinal is not 9. -/
def envA : Env :=
  { my_signer := some 2
    get_chunk_validator_assignments := fun ep sh ht =>
      if ep == 5 && sh == 1 && ht == 10 then .ok [0, 1, 2, 3] else .error .EpochError
    get_chunk_producer := fun ep ht sh =>
      if ep == 5 && ht == 10 && sh == 1 then .ok 2 else .error .EpochError
    validate_partial_encoded_state_witness := fun pw _ => .ok (pw.part_ord != 9)
    encode_witness := fun w => .ok { bytes := w.data }
    store_partial_encoded_state_witness := fun _ => .ok () }

/-- A distribute request for `envA`. -/
def msgA : DistributeStateWitnessRequest :=
  { epoch_id := 5, chunk_header := hdrA
    state_witness := { chunk_header := hdrA, data := [9, 8, 7, 6, 5] } }

/-- An environment whose local signer (validator 2) is not among the assigned
chunk validators `[0, 1, 3]`. -/
def envB : Env :=
  { my_signer := some 2
    get_chunk_validator_assignments := fun ep sh ht =>
      if ep == 5 && sh == 1 && ht == 10 then .ok [0, 1, 3] else .error .EpochError
    get_chunk_producer := fun ep ht sh =>
      if ep == 5 && ht == 10 && sh == 1 then .ok 2 else .error .EpochError
    validate_partial_encoded_state_witness := fun pw _ => .ok (pw.part_ord != 9)
    encode_witness := fun w => .ok { bytes := w.data }
    store_partial_encoded_state_witness := fun _ => .ok () }

/-- An environment with a two-validator assignment `[2, 3]` in which the
local signer is validator 2 and the chunk producer is validator 3, so the
forwarding target set is empty. -/
def envC : Env :=
  { my_signer := some 2
    get_chunk_validator_assignments := fun ep sh ht =>
      if ep == 5 && sh == 1 && ht == 10 then .ok [2, 3] else .error .EpochError
    get_chunk_producer := fun ep ht sh =>
      if ep == 5 && ht == 10 && sh == 1 then .ok 3 else .error .EpochError
    validate_partial_encoded_state_witness := fun pw _ => .ok (pw.part_ord != 9)
    encode_witness := fun w => .ok { bytes := w.data }
    store_partial_encoded_state_witness := fun _ => .ok () }

/-- An environment with no local signing identity. -/
def envNoSigner : Env :=
  { my_signer := none
    get_chunk_validator_assignments := fun _ _ _ => .ok [0, 1, 2, 3]
    get_chunk_producer := fun _ _ _ => .ok 0
    validate_partial_encoded_state_witness := fun _ _ => .ok true
    encode_witness := fun w => .ok { bytes := w.data }
    store_partial_encoded_state_witness := fun _ => .ok () }

/-- A concrete inbound part for production key (shard 1, epoch 5, height 10). -/
def pwA : PartialEncodedStateWitness :=
  { epoch_id := 5, shard_id := 1, height_created := 10, part_ord := 0
    part := [9, 5], encoded_length := 5, signature := 2 }

/-- A concrete inbound part that the part validator of `envA` rejects
(returns `false` for) because its ordinal is 9. -/
def pwRejected : PartialEncodedStateWitness :=
  { epoch_id := 5, shard_id := 1, height_created := 10, part_ord := 9
    part := [1, 2], encoded_length := 5, signature := 2 }

/-! ### Helper lemmas: the codec and part generation -/

theorem zipEq_eq_zip {α β : Type} : ∀ {as_ : List α} {bs : List β},
    as_.length = bs.length → zipEq as_ bs = some (as_.zip bs)
  | [], [], _ => rfl
  | a :: as_, b :: bs, h => by
    have h2 : as_.length = bs.length := by simpa using h
    simp [zipEq, zipEq_eq_zip h2]
  | [], _ :: _, h => by simp at h
  | _ :: _, [], h => by simp at h

theorem zip_map_some {α β : Type} : ∀ (vs : List α) (os : List β),
    vs.zip (os.map some) = (vs.zip os).map (fun p => (p.fst, some p.snd))
  | [], _ => by simp
  | _ :: _, [] => by simp
  | v :: vs, o :: os => by simp [zip_map_some vs os]

theorem buildTuples_map_some (epoch_id : EpochId) (ch : ShardChunkHeader)
    (len : Nat) (s : AccountId) :
    ∀ (ord : Nat) (l : List (AccountId × Bytes)),
    buildTuples epoch_id ch len s ord (l.map (fun p => (p.fst, some p.snd))) =
      .ok (pairParts epoch_id ch len s ord l)
  | _, [] => rfl
  | ord, (_, _) :: rest => by
    simp [buildTuples, pairParts, buildTuples_map_some epoch_id ch len s (ord + 1) rest]

theorem length_encodeParts (n : Nat) (w : EncodedChunkStateWitness) :
    (encodeParts n w).length = n := by
  simp [encodeParts]

theorem generate_eq_ok (env : Env) (epoch_id : EpochId) (ch : ShardChunkHeader)
    (wb : EncodedChunkStateWitness) (s : AccountId) (vs : List AccountId)
    (h : env.get_chunk_validator_assignments epoch_id ch.shard_id ch.height_created =
      .ok vs) :
    generate_state_witness_parts env epoch_id ch wb s =
      ({ encodings := 1 },
        .ok (pairParts epoch_id ch wb.bytes.length s 0
          (vs.zip (encodeParts vs.length wb)))) := by
  have hlen : vs.length = ((encodeParts vs.length wb).map some).length := by
    simp [length_encodeParts]
  simp only [generate_state_witness_parts, h, encode, zipEq_eq_zip hlen,
    zip_map_some, buildTuples_map_some]

theorem zip_get? {α β : Type} : ∀ (as_ : List α) (bs : List β) (i : Nat),
    (as_.zip bs).get? i = ((as_.get? i).bind fun a => (bs.get? i).map fun b => (a, b))
  | [], _, _ => by simp
  | _ :: _, [], _ => by simp
  | a :: as_, b :: bs, 0 => by simp
  | a :: as_, b :: bs, i + 1 => by simpa using zip_get? as_ bs i

/-! ### Helper lemmas: `position` (`Iterator::position`) -/

theorem position_eq_none (p : α → Bool) : ∀ l : List α,
    position p l = none ↔ ∀ a ∈ l, p a = false
  | [] => by simp [position]
  | a :: l => by
    by_cases h : p a <;> simp [position, h, position_eq_none p l]

theorem position_get? (p : α → Bool) : ∀ (l : List α) (i : Nat),
    position p l = some i → ∃ a, l.get? i = some a ∧ p a = true
  | [], i, h => by simp [position] at h
  | a :: l, i, h => by
    by_cases hpa : p a
    · simp [position, hpa] at h
      subst h
      exact ⟨a, rfl, hpa⟩
    · simp [position, hpa] at h
      obtain ⟨j, hj, rfl⟩ := h
      obtain ⟨b, hb, hpb⟩ := position_get? p l j hj
      exact ⟨b, by simpa using hb, hpb⟩

theorem position_some_of_mem (p : α → Bool) : ∀ (l : List α) (a : α),
    a ∈ l → p a = true → ∃ i, position p l = some i
  | [], a, ha, _ => by simp at ha
  | b :: l, a, ha, hpa => by
    by_cases hpb : p b
    · exact ⟨0, by simp [position, hpb]⟩
    · rcases List.mem_cons.1 ha with rfl | hmem
      · exact absurd hpa (by simp [hpb])
      · obtain ⟨i, hi⟩ := position_some_of_mem p l a hmem hpa
        exact ⟨i + 1, by simp [position, hpb, hi]⟩

theorem position_map (f : α → β) (p : β → Bool) : ∀ l : List α,
    position p (l.map f) = position (fun a => p (f a)) l
  | [] => rfl
  | a :: l => by by_cases h : p (f a) <;> simp [position, h, position_map f p l]

/-! ### Helper lemmas: `pairParts` -/

theorem pairParts_length (epoch_id : EpochId) (ch : ShardChunkHeader)
    (len : Nat) (s : AccountId) :
    ∀ (ord : Nat) (l : List (AccountId × Bytes)),
    (pairParts epoch_id ch len s ord l).length = l.length
  | _, [] => rfl
  | ord, (_, _) :: rest => by
    simp [pairParts, pairParts_length epoch_id ch len s (ord + 1) rest]

theorem pairParts_get? (epoch_id : EpochId) (ch : ShardChunkHeader)
    (len : Nat) (s : AccountId) :
    ∀ (ord : Nat) (l : List (AccountId × Bytes)) (i : Nat),
    (pairParts epoch_id ch len s ord l).get? i =
      (l.get? i).map (fun p =>
        (p.fst, PartialEncodedStateWitness.new epoch_id ch (ord + i) p.snd len s))
  | _, [], i => by simp [pairParts]
  | ord, (v, b) :: rest, 0 => by simp [pairParts]
  | ord, (v, b) :: rest, i + 1 => by
    have ih := pairParts_get? epoch_id ch len s (ord + 1) rest i
    simp only [pairParts, List.get?_cons_succ, ih]
    have harith : ord + 1 + i = ord + (i + 1) := by omega
    rw [harith]

theorem pairParts_map_fst (epoch_id : EpochId) (ch : ShardChunkHeader)
    (len : Nat) (s : AccountId) :
    ∀ (ord : Nat) (l : List (AccountId × Bytes)),
    (pairParts epoch_id ch len s ord l).map Prod.fst = l.map Prod.fst
  | _, [] => rfl
  | ord, (_, _) :: rest => by
    simp [pairParts, pairParts_map_fst epoch_id ch len s (ord + 1) rest]

theorem position_fst_pairParts (epoch_id : EpochId) (ch : ShardChunkHeader)
    (len : Nat) (s : AccountId) (ord : Nat) (l : List (AccountId × Bytes))
    (q : AccountId) :
    position (fun p => p.fst == q) (pairParts epoch_id ch len s ord l) =
      position (fun p => p.fst == q) l := by
  have h1 := position_map (Prod.fst (α := AccountId) (β := PartialEncodedStateWitness))
    (fun v => v == q) (pairParts epoch_id ch len s ord l)
  have h2 := position_map (Prod.fst (α := AccountId) (β := Bytes)) (fun v => v == q) l
  rw [← h1, ← h2, pairParts_map_fst]

theorem position_fst_zip {β : Type} (vs : List AccountId) (os : List β)
    (hlen : vs.length ≤ os.length) (q : AccountId) :
    position (fun p => p.fst == q) (vs.zip os) = position (fun v => v == q) vs := by
  have h1 := position_map (Prod.fst (α := AccountId) (β := β))
    (fun v => v == q) (vs.zip os)
  rw [← h1, List.map_fst_zip vs os hlen]

/-! ### Helper lemmas: `swapRemove` (`Vec::swap_remove`) -/

theorem swapRemove_length (l : List α) (i : Nat) (h : l ≠ []) :
    (swapRemove l i).length = l.length - 1 := by
  unfold swapRemove
  cases hl : l.getLast? with
  | none => exact absurd (List.getLast?_eq_none_iff.1 hl) h
  | some a => simp

theorem swapRemove_map {α β : Type} (f : α → β) (l : List α) (i : Nat) :
    (swapRemove l i).map f = swapRemove (l.map f) i := by
  unfold swapRemove
  rw [List.getLast?_map]
  cases hl : l.getLast? with
  | none => simp
  | some a => simp [List.map_dropLast, List.map_set]

theorem swapRemove_get? (l : List α) (i j : Nat) (hj : j < l.length - 1) :
    (swapRemove l i).get? j = if i = j then l.get? (l.length - 1) else l.get? j := by
  have hne : l ≠ [] := by
    intro h
    subst h
    simp at hj
  cases hl : l.getLast? with
  | none => exact absurd (List.getLast?_eq_none_iff.1 hl) hne
  | some a =>
    have hsw : swapRemove l i = (l.set i a).dropLast := by
      unfold swapRemove
      rw [hl]
    rw [hsw, List.dropLast_eq_take, List.get?_take (by simpa using hj), List.get?_set]
    have hsome : l.getLast? = l.get? (l.length - 1) := List.getLast?_eq_get? l
    by_cases hij : i = j
    · subst hij
      have hji : i < l.length := by omega
      rw [if_pos rfl, if_pos rfl, List.get?_eq_get hji]
      simp [← List.getLast?_eq_getElem?, hl]
    · simp [hij]

theorem not_mem_swapRemove_of_nodup (vs : List AccountId) (i : Nat) (s : AccountId)
    (hnd : vs.Nodup) (hi : vs.get? i = some s) : s ∉ swapRemove vs i := by
  intro hmem
  have hilen : i < vs.length := (List.get?_eq_some.1 hi).1
  obtain ⟨j, hj⟩ := List.mem_iff_get?.1 hmem
  have hne : vs ≠ [] := by
    intro h
    subst h
    simp at hi
  have hjlen : j < (swapRemove vs i).length := (List.get?_eq_some.1 hj).1
  rw [swapRemove_length vs i hne] at hjlen
  rw [swapRemove_get? vs i j hjlen] at hj
  by_cases hij : i = j
  · rw [if_pos hij] at hj
    have : i = vs.length - 1 := List.get?_inj hilen hnd (hi.trans hj.symm)
    omega
  · rw [if_neg hij] at hj
    have : i = j := List.get?_inj hilen hnd (hi.trans hj.symm)
    exact hij this

/-! ### Helper lemmas: the distribute path -/

theorem Effects.append_eq (a b : Effects) : a ++ b =
    { sends := a.sends ++ b.sends
      stores := a.stores ++ b.stores
      records := a.records ++ b.records
      compressions := a.compressions + b.compressions
      encodings := a.encodings + b.encodings
      validations := a.validations ++ b.validations } := rfl

theorem encodeParts_get? (n : Nat) (wb : EncodedChunkStateWitness) (i : Nat)
    (h : i < n) : (encodeParts n wb).get? i = some (stripe n i wb.bytes) := by
  rw [encodeParts, List.get?_eq_getElem?, List.getElem?_map, List.getElem?_range h]
  rfl

theorem forward_eq_ok (env : Env) (pw : PartialEncodedStateWitness) (s : AccountId)
    (cp : AccountId) (vs : List AccountId)
    (hprod : env.get_chunk_producer pw.epoch_id pw.height_created pw.shard_id = .ok cp)
    (hassign : env.get_chunk_validator_assignments pw.epoch_id pw.shard_id
      pw.height_created = .ok vs) :
    forward_state_witness_part env pw s =
      ({ sends := [NetworkRequests.PartialEncodedStateWitnessForward
          (vs.filter (fun validator => validator != s && validator != cp)) pw] },
        .ok ()) := by
  simp only [forward_state_witness_part, PartialEncodedStateWitness.chunk_production_key,
    hprod, hassign]

theorem send_parts_noself (env : Env) (epoch_id : EpochId) (ch : ShardChunkHeader)
    (wb : EncodedChunkStateWitness) (s : AccountId) (vs : List AccountId)
    (hassign : env.get_chunk_validator_assignments epoch_id ch.shard_id
      ch.height_created = .ok vs)
    (hpos : position (fun v => v == s) vs = none) :
    send_state_witness_parts env epoch_id ch wb s =
      ({ encodings := 1
         records := [(ch.chunk_hash, wb.size_bytes, vs.length)]
         sends := [NetworkRequests.PartialEncodedStateWitness
           (pairParts epoch_id ch wb.bytes.length s 0
             (vs.zip (encodeParts vs.length wb)))] }, .ok ()) := by
  have hgen := generate_eq_ok env epoch_id ch wb s vs hassign
  have hos : (encodeParts vs.length wb).length = vs.length := length_encodeParts _ _
  have hposT : position (fun p => p.fst == s)
      (pairParts epoch_id ch wb.bytes.length s 0
        (vs.zip (encodeParts vs.length wb))) = none := by
    rw [position_fst_pairParts, position_fst_zip _ _ (by omega)]
    exact hpos
  have hTlen : (pairParts epoch_id ch wb.bytes.length s 0
      (vs.zip (encodeParts vs.length wb))).length = vs.length := by
    rw [pairParts_length, List.length_zip, hos]
    simp
  simp only [send_state_witness_parts, hgen, hposT, hTlen, Effects.append_eq]
  simp [EncodedChunkStateWitness.size_bytes]

theorem send_parts_self (env : Env) (epoch_id : EpochId) (ch : ShardChunkHeader)
    (wb : EncodedChunkStateWitness) (s : AccountId) (vs : List AccountId)
    (i : Nat) (cp : AccountId)
    (hassign : env.get_chunk_validator_assignments epoch_id ch.shard_id
      ch.height_created = .ok vs)
    (hpos : position (fun v => v == s) vs = some i)
    (hprod : env.get_chunk_producer epoch_id ch.height_created ch.shard_id = .ok cp) :
    send_state_witness_parts env epoch_id ch wb s =
      ({ encodings := 1
         sends := [NetworkRequests.PartialEncodedStateWitnessForward
             (vs.filter (fun validator => validator != s && validator != cp))
             (PartialEncodedStateWitness.new epoch_id ch i
               (stripe vs.length i wb.bytes) wb.bytes.length s),
           NetworkRequests.PartialEncodedStateWitness
             (swapRemove (pairParts epoch_id ch wb.bytes.length s 0
               (vs.zip (encodeParts vs.length wb))) i)]
         records := [(ch.chunk_hash, wb.size_bytes, vs.length - 1)] }, .ok ()) := by
  have hgen := generate_eq_ok env epoch_id ch wb s vs hassign
  have hvs : vs.get? i = some s := by
    obtain ⟨a, ha, hpa⟩ := position_get? _ _ _ hpos
    have haq : a = s := by simpa using hpa
    rwa [haq] at ha
  have hlt : i < vs.length := (List.get?_eq_some.1 hvs).1
  have hos : (encodeParts vs.length wb).length = vs.length := length_encodeParts _ _
  have hposT : position (fun p => p.fst == s)
      (pairParts epoch_id ch wb.bytes.length s 0
        (vs.zip (encodeParts vs.length wb))) = some i := by
    rw [position_fst_pairParts, position_fst_zip _ _ (by omega)]
    exact hpos
  have hget : (pairParts epoch_id ch wb.bytes.length s 0
      (vs.zip (encodeParts vs.length wb))).get? i =
      some (s, PartialEncodedStateWitness.new epoch_id ch i
        (stripe vs.length i wb.bytes) wb.bytes.length s) := by
    rw [pairParts_get?, zip_get?, hvs, encodeParts_get? _ _ _ hlt]
    simp
  have hfwd := forward_eq_ok env
    (PartialEncodedStateWitness.new epoch_id ch i
      (stripe vs.length i wb.bytes) wb.bytes.length s) s cp vs hprod hassign
  have hTlen : (pairParts epoch_id ch wb.bytes.length s 0
      (vs.zip (encodeParts vs.length wb))).length = vs.length := by
    rw [pairParts_length, List.length_zip, hos]
    simp
  have hTne : pairParts epoch_id ch wb.bytes.length s 0
      (vs.zip (encodeParts vs.length wb)) ≠ [] := by
    intro h
    rw [h] at hTlen
    simp at hTlen
    omega
  have hrem : (swapRemove (pairParts epoch_id ch wb.bytes.length s 0
      (vs.zip (encodeParts vs.length wb))) i).length = vs.length - 1 := by
    rw [swapRemove_length _ _ hTne, hTlen]
  simp only [send_state_witness_parts, hgen, hposT, hget, hfwd, hrem, Effects.append_eq]
  simp [EncodedChunkStateWitness.size_bytes]

theorem handle_distribute_eq (env : Env) (msg : DistributeStateWitnessRequest)
    (s : AccountId) (wb : EncodedChunkStateWitness)
    (hsig : env.my_signer = some s)
    (hcomp : env.encode_witness msg.state_witness = .ok wb) :
    handle_distribute_state_witness_request env msg =
      ({ compressions := 1 } ++
        (send_state_witness_parts env msg.epoch_id msg.chunk_header wb s).fst,
       (send_state_witness_parts env msg.epoch_id msg.chunk_header wb s).snd) := by
  simp only [handle_distribute_state_witness_request, compress_witness, hsig, hcomp]

/-! ### Claim theorems -/

/-- C4: handling an inbound forward message
(`handle_partial_encoded_state_witness_forward`) never dispatches any network
message — its effects contain no sends, for every environment, part and
outcome — and when the node has a signer and the part validates it is
validated and stored into the reconstruction tracker.  Forwarded parts are
never re-forwarded, so a part travels at most two hops. -/
theorem forward_handler_no_network (env : Env) (pw : PartialEncodedStateWitness) :
    (handle_partial_encoded_state_witness_forward env pw).fst.sends = [] ∧
    (∀ s, env.my_signer = some s →
      env.validate_partial_encoded_state_witness pw s = .ok true →
      (handle_partial_encoded_state_witness_forward env pw).fst.stores = [pw] ∧
      (handle_partial_encoded_state_witness_forward env pw).fst.validations = [pw]) := by
  unfold handle_partial_encoded_state_witness_forward
  cases hs : env.my_signer with
  | none => simp
  | some s =>
    cases hv : env.validate_partial_encoded_state_witness pw s with
    | error e => simp [hv]
    | ok b =>
      cases b with
      | false => simp [hv]
      | true =>
        cases hst : env.store_partial_encoded_state_witness pw <;> simp [hv]

/-- Witness for C4 at a concrete environment and part. -/
theorem forward_handler_no_network_witness :
    (handle_partial_encoded_state_witness_forward envA pwA).fst.sends = [] ∧
    (handle_partial_encoded_state_witness_forward envA pwA).fst.stores = [pwA] := by
  obtain ⟨h1, h2⟩ := forward_handler_no_network envA pwA
  exact ⟨h1, (h2 2 rfl (by decide)).1⟩

/-- C7: a distribute request handled with no local validator signing identity
fails with `NotAValidator` and has no effects whatsoever: no compression, no
encoding, no tracker store, no send-record, no network dispatch (the empty
`Effects` literal has zero/empty in every field). -/
theorem distribute_not_a_validator (env : Env) (msg : DistributeStateWitnessRequest)
    (h : env.my_signer = none) :
    handle_distribute_state_witness_request env msg =
      ({}, .error (.NotAValidator "distribute state witness")) := by
  simp only [handle_distribute_state_witness_request, h]

/-- Witness for C7 at a concrete environment with no signer. -/
theorem distribute_not_a_validator_witness :
    envNoSigner.my_signer = none ∧
    handle_distribute_state_witness_request envNoSigner msgA =
      ({}, .error (.NotAValidator "distribute state witness")) :=
  ⟨rfl, distribute_not_a_validator envNoSigner msgA rfl⟩

/-- C8: for a received part (direct or forwarded) for which the part
validator returns `false` (well-formed but rejected), both handlers return
success with effects containing only the validation call: the part is not
stored and no network request (in particular no forward) is dispatched. -/
theorem rejected_part_dropped_silently (env : Env) (pw : PartialEncodedStateWitness)
    (s : AccountId) (hsig : env.my_signer = some s)
    (hval : env.validate_partial_encoded_state_witness pw s = .ok false) :
    handle_partial_encoded_state_witness env pw =
      ({ validations := [pw] }, .ok ()) ∧
    handle_partial_encoded_state_witness_forward env pw =
      ({ validations := [pw] }, .ok ()) := by
  constructor <;>
    simp only [handle_partial_encoded_state_witness,
      handle_partial_encoded_state_witness_forward, hsig, hval]

/-- Witness for C8 at a concrete environment and a part its validator
rejects. -/
theorem rejected_part_dropped_silently_witness :
    handle_partial_encoded_state_witness envA pwRejected =
      ({ validations := [pwRejected] }, .ok ()) ∧
    handle_partial_encoded_state_witness_forward envA pwRejected =
      ({ validations := [pwRejected] }, .ok ()) :=
  rejected_part_dropped_silently envA pwRejected 2 rfl (by decide)

/-- C10 (implicit): handling an inbound direct part or an inbound forwarded
part with no local validator signing identity fails with `NotAValidator`
before validation, with no effects at all: the part is neither validated nor
stored nor forwarded. -/
theorem inbound_not_a_validator (env : Env) (pw : PartialEncodedStateWitness)
    (h : env.my_signer = none) :
    handle_partial_encoded_state_witness env pw =
      ({}, .error (.NotAValidator "handle partial encoded state witness")) ∧
    handle_partial_encoded_state_witness_forward env pw =
      ({}, .error (.NotAValidator "handle partial encoded state witness forward")) := by
  constructor <;>
    simp only [handle_partial_encoded_state_witness,
      handle_partial_encoded_state_witness_forward, h]

/-- Witness for C10 at a concrete environment with no signer. -/
theorem inbound_not_a_validator_witness :
    handle_partial_encoded_state_witness envNoSigner pwA =
      ({}, .error (.NotAValidator "handle partial encoded state witness")) ∧
    handle_partial_encoded_state_witness_forward envNoSigner pwA =
      ({}, .error (.NotAValidator "handle partial encoded state witness forward")) :=
  inbound_not_a_validator envNoSigner pwA rfl

/-- C9 (encoder modelled from the spec): `encode` with a codec configured for
`n = |assignment|` shards returns exactly `n` parts and every part is present
(none is the missing optional case), so `generate_state_witness_parts` —
which `zip_eq`-pairs the parts with the `n` assigned validators and unwraps
each one — never fails once the assignment lookup has succeeded. -/
theorem encode_all_parts_present (env : Env) (epoch_id : EpochId)
    (ch : ShardChunkHeader) (wb : EncodedChunkStateWitness) (s : AccountId)
    (vs : List AccountId)
    (hassign : env.get_chunk_validator_assignments epoch_id ch.shard_id
      ch.height_created = .ok vs) :
    ((encode vs.length wb).fst.length = vs.length ∧
      ∀ p ∈ (encode vs.length wb).fst, p.isSome = true) ∧
    ∃ tuples, generate_state_witness_parts env epoch_id ch wb s =
      ({ encodings := 1 }, .ok tuples) ∧ tuples.length = vs.length := by
  refine ⟨⟨by simp [encode, length_encodeParts], ?_⟩,
    ⟨_, generate_eq_ok env epoch_id ch wb s vs hassign, ?_⟩⟩
  · intro p hp
    simp only [encode, List.mem_map] at hp
    obtain ⟨b, _, hb⟩ := hp
    rw [← hb]
    rfl
  · rw [pairParts_length, List.length_zip, length_encodeParts]
    simp

/-- Witness for C9 at a concrete four-validator assignment. -/
theorem encode_all_parts_present_witness :
    (encode 4 { bytes := [9, 8, 7, 6, 5] }).fst.length = 4 ∧
    Option.isSome (some ([9, 5] : Bytes)) = true := by
  have h := encode_all_parts_present envA 5 hdrA { bytes := [9, 8, 7, 6, 5] } 2
    [0, 1, 2, 3] rfl
  exact ⟨h.1.1, h.1.2 (some [9, 5]) (by decide)⟩

/-- C5: for a successful part generation over an ordered validator assignment
`vs` of size `N`, the generated batch has exactly `N` entries and entry `i`
pairs the part with ordinal `i` with the `i`-th validator of the ordered
assignment. -/
theorem part_ordinal_pairs_validator (env : Env) (epoch_id : EpochId)
    (ch : ShardChunkHeader) (wb : EncodedChunkStateWitness) (s : AccountId)
    (vs : List AccountId) (tuples : List (AccountId × PartialEncodedStateWitness))
    (hassign : env.get_chunk_validator_assignments epoch_id ch.shard_id
      ch.height_created = .ok vs)
    (hgen : (generate_state_witness_parts env epoch_id ch wb s).snd = .ok tuples) :
    tuples.length = vs.length ∧
    ∀ i v p, tuples.get? i = some (v, p) → vs.get? i = some v ∧ p.part_ord = i := by
  rw [generate_eq_ok env epoch_id ch wb s vs hassign] at hgen
  have ht : tuples = pairParts epoch_id ch wb.bytes.length s 0
      (vs.zip (encodeParts vs.length wb)) := by
    injection hgen with h
    exact h.symm
  subst ht
  constructor
  · rw [pairParts_length, List.length_zip, length_encodeParts]
    simp
  · intro i v p hp
    rw [pairParts_get?, zip_get?] at hp
    cases hvs : vs.get? i with
    | none =>
      rw [hvs] at hp
      simp at hp
    | some a =>
      rw [hvs] at hp
      cases hos : (encodeParts vs.length wb).get? i with
      | none =>
        rw [hos] at hp
        simp at hp
      | some b =>
        rw [hos] at hp
        simp only [Option.bind_eq_bind, Option.some_bind, Option.map_some',
          Option.some.injEq, Prod.mk.injEq] at hp
        obtain ⟨h1, h2⟩ := hp
        refine ⟨by rw [h1], ?_⟩
        rw [← h2]
        simp [PartialEncodedStateWitness.new]

/-- Witness for C5 at a concrete four-validator assignment, checked at
index 2. -/
theorem part_ordinal_pairs_validator_witness :
    ([0, 1, 2, 3] : List AccountId).get? 2 = some 2 ∧
    ({ epoch_id := 5, shard_id := 1, height_created := 10, part_ord := 2
       part := [7], encoded_length := 5, signature := 2 } :
      PartialEncodedStateWitness).part_ord = 2 :=
  (part_ordinal_pairs_validator envA 5 hdrA { bytes := [9, 8, 7, 6, 5] } 2
    [0, 1, 2, 3]
    [(0, { epoch_id := 5, shard_id := 1, height_created := 10, part_ord := 0
           part := [9, 5], encoded_length := 5, signature := 2 }),
     (1, { epoch_id := 5, shard_id := 1, height_created := 10, part_ord := 1
           part := [8], encoded_length := 5, signature := 2 }),
     (2, { epoch_id := 5, shard_id := 1, height_created := 10, part_ord := 2
           part := [7], encoded_length := 5, signature := 2 }),
     (3, { epoch_id := 5, shard_id := 1, height_created := 10, part_ord := 3
           part := [6], encoded_length := 5, signature := 2 })]
    rfl (by decide)).2 2 2
    { epoch_id := 5, shard_id := 1, height_created := 10, part_ord := 2
      part := [7], encoded_length := 5, signature := 2 } (by decide)

/-- C2: every forward request generated by the forwarding step
(`forward_state_witness_part`, which is invoked both for a received part and
for the local self-delivery during distribution) has a target validator set
containing neither the local validator identity nor the chunk producer for
the part's production key. -/
theorem forward_targets_exclusion (env : Env) (pw : PartialEncodedStateWitness)
    (s : AccountId) (targets : List AccountId) (q : PartialEncodedStateWitness)
    (cp : AccountId)
    (hmem : NetworkRequests.PartialEncodedStateWitnessForward targets q ∈
      (forward_state_witness_part env pw s).fst.sends)
    (hcp : env.get_chunk_producer pw.epoch_id pw.height_created pw.shard_id = .ok cp) :
    s ∉ targets ∧ cp ∉ targets := by
  simp only [forward_state_witness_part,
    PartialEncodedStateWitness.chunk_production_key] at hmem
  rw [hcp] at hmem
  cases ha : env.get_chunk_validator_assignments pw.epoch_id pw.shard_id
      pw.height_created with
  | error e =>
    rw [ha] at hmem
    simp at hmem
  | ok vs =>
    rw [ha] at hmem
    simp only [List.mem_singleton,
      NetworkRequests.PartialEncodedStateWitnessForward.injEq] at hmem
    obtain ⟨htg, _⟩ := hmem
    subst htg
    constructor
    · intro hin
      have h2 := (List.mem_filter.1 hin).2
      simp at h2
    · intro hin
      have h2 := (List.mem_filter.1 hin).2
      simp at h2

/-- Witness for C2 at a concrete forward dispatch (signer 2, producer 2,
targets `[0, 1, 3]`). -/
theorem forward_targets_exclusion_witness :
    (2 : AccountId) ∉ ([0, 1, 3] : List AccountId) ∧
    (2 : AccountId) ∉ ([0, 1, 3] : List AccountId) :=
  forward_targets_exclusion envA pwA 2 [0, 1, 3] pwA 2 (by decide) rfl

/-- C3 counterexample: in `envC` the assignment is `[2, 3]`, the local signer
is validator 2 and the chunk producer is validator 3, so the computed target
set is empty — yet the forwarding step still dispatches one network forward
request (with an empty target list).  The claim that no network request is
dispatched when the target set is empty is false of the code, which performs
no emptiness check. -/
theorem forward_empty_targets_counterexample :
    (([2, 3] : List AccountId).filter (fun v => v != 2 && v != 3) = []) ∧
    (forward_state_witness_part envC pwA 2).fst.sends =
      [NetworkRequests.PartialEncodedStateWitnessForward [] pwA] := by
  decide

/-- C3 amended: whenever the chunk-producer and assignment lookups succeed,
the forwarding step dispatches exactly one network forward request carrying
the computed target set (assignment minus self and minus the chunk producer)
and the part unchanged, regardless of whether that target set is empty. -/
theorem forward_always_dispatches (env : Env) (pw : PartialEncodedStateWitness)
    (s cp : AccountId) (vs : List AccountId)
    (hprod : env.get_chunk_producer pw.epoch_id pw.height_created pw.shard_id = .ok cp)
    (hassign : env.get_chunk_validator_assignments pw.epoch_id pw.shard_id
      pw.height_created = .ok vs) :
    forward_state_witness_part env pw s =
      ({ sends := [NetworkRequests.PartialEncodedStateWitnessForward
          (vs.filter (fun validator => validator != s && validator != cp)) pw] },
        .ok ()) :=
  forward_eq_ok env pw s cp vs hprod hassign

/-- Witness for C3's amended claim at `envC`, where the computed target set
is empty and a forward request is dispatched anyway. -/
theorem forward_always_dispatches_witness :
    forward_state_witness_part envC pwA 2 =
      ({ sends := [NetworkRequests.PartialEncodedStateWitnessForward
          (([2, 3] : List AccountId).filter
            (fun validator => validator != 2 && validator != 3)) pwA] },
        .ok ()) :=
  forward_always_dispatches envC pwA 2 3 [2, 3] rfl rfl

/-- C6: for every successful distribution, the send-record created in the
send-ack tracker is keyed by the chunk hash and carries the witness size and
a recipient count equal to the length of the outbound batch after any self
entry has been removed: `N - 1` when the local identity is among the `N`
assigned validators, `N` otherwise. -/
theorem send_record_recipient_count (env : Env) (msg : DistributeStateWitnessRequest)
    (s : AccountId) (wb : EncodedChunkStateWitness) (vs : List AccountId)
    (cp : AccountId)
    (hsig : env.my_signer = some s)
    (hcomp : env.encode_witness msg.state_witness = .ok wb)
    (hassign : env.get_chunk_validator_assignments msg.epoch_id
      msg.chunk_header.shard_id msg.chunk_header.height_created = .ok vs)
    (hprod : env.get_chunk_producer msg.epoch_id msg.chunk_header.height_created
      msg.chunk_header.shard_id = .ok cp) :
    ∃ batch, NetworkRequests.PartialEncodedStateWitness batch ∈
        (handle_distribute_state_witness_request env msg).fst.sends ∧
      (handle_distribute_state_witness_request env msg).fst.records =
        [(msg.chunk_header.chunk_hash, wb.size_bytes, batch.length)] ∧
      batch.length = (if s ∈ vs then vs.length - 1 else vs.length) := by
  rw [handle_distribute_eq env msg s wb hsig hcomp]
  by_cases hmem : s ∈ vs
  · obtain ⟨i, hpos⟩ := position_some_of_mem (fun v => v == s) vs s hmem (by simp)
    rw [send_parts_self env msg.epoch_id msg.chunk_header wb s vs i cp hassign
      hpos hprod]
    have hvs : vs.get? i = some s := by
      obtain ⟨a, ha, hpa⟩ := position_get? _ _ _ hpos
      have haq : a = s := by simpa using hpa
      rwa [haq] at ha
    have hlt : i < vs.length := (List.get?_eq_some.1 hvs).1
    have hTlen : (pairParts msg.epoch_id msg.chunk_header wb.bytes.length s 0
        (vs.zip (encodeParts vs.length wb))).length = vs.length := by
      rw [pairParts_length, List.length_zip, length_encodeParts]
      simp
    have hTne : pairParts msg.epoch_id msg.chunk_header wb.bytes.length s 0
        (vs.zip (encodeParts vs.length wb)) ≠ [] := by
      intro h
      rw [h] at hTlen
      simp at hTlen
      omega
    have hrem : (swapRemove (pairParts msg.epoch_id msg.chunk_header
        wb.bytes.length s 0 (vs.zip (encodeParts vs.length wb))) i).length =
        vs.length - 1 := by
      rw [swapRemove_length _ _ hTne, hTlen]
    refine ⟨swapRemove (pairParts msg.epoch_id msg.chunk_header wb.bytes.length s 0
      (vs.zip (encodeParts vs.length wb))) i, ?_, ?_, ?_⟩
    · simp [Effects.append_eq]
    · simp [Effects.append_eq, hrem]
    · simp [hmem, hrem]
  · have hpos : position (fun v => v == s) vs = none := by
      rw [position_eq_none]
      intro a ha
      simp only [beq_eq_false_iff_ne]
      intro hEq
      exact hmem (hEq ▸ ha)
    rw [send_parts_noself env msg.epoch_id msg.chunk_header wb s vs hassign hpos]
    have hTlen : (pairParts msg.epoch_id msg.chunk_header wb.bytes.length s 0
        (vs.zip (encodeParts vs.length wb))).length = vs.length := by
      rw [pairParts_length, List.length_zip, length_encodeParts]
      simp
    refine ⟨pairParts msg.epoch_id msg.chunk_header wb.bytes.length s 0
      (vs.zip (encodeParts vs.length wb)), ?_, ?_, ?_⟩
    · simp [Effects.append_eq]
    · simp [Effects.append_eq, hTlen]
    · simp [hmem, hTlen]

/-- Witness for C6 at a concrete distribution whose local signer is one of
the four assigned validators (batch size 3 = 4 - 1). -/
theorem send_record_recipient_count_witness :
    (handle_distribute_state_witness_request envA msgA).fst.records =
      [(77, 5, 3)] := by
  obtain ⟨batch, hmem, hrec, hlen⟩ := send_record_recipient_count envA msgA 2
    { bytes := [9, 8, 7, 6, 5] } [0, 1, 2, 3] 2 rfl rfl rfl rfl
  rw [hrec, hlen]
  decide

/-- C1 counterexample: a concrete distribution (`envA`, `msgA`) in which the
local signer (validator 2) is among the assigned validators and the request
succeeds, yet the handler's effects contain no reconstruction-tracker store
at all (`stores = []`): the claim's conjunct "the part is stored into the
local Reconstruction Tracker" is false of the code, which only forwards the
self part and never stores it. -/
theorem distribute_self_delivery_counterexample :
    envA.my_signer = some 2 ∧
    envA.get_chunk_validator_assignments 5 1 10 = .ok [0, 1, 2, 3] ∧
    (2 : AccountId) ∈ ([0, 1, 2, 3] : List AccountId) ∧
    (handle_distribute_state_witness_request envA msgA).snd = .ok () ∧
    (handle_distribute_state_witness_request envA msgA).fst.stores = [] := by
  decide

/-- C1 amended: for every distribute request in which the local signing
identity is among the (duplicate-free) assigned chunk validators and the
external lookups succeed, the request succeeds, the (validator, part) pair
for the local identity is removed from the outbound network batch (no batch
entry names the local identity), and a forward request for the locally owned
part is dispatched to the remaining validators (the assignment minus self
and minus the chunk producer) — but the part is NOT stored into the local
reconstruction tracker: the distribute path performs no store. -/
theorem distribute_self_delivery (env : Env) (msg : DistributeStateWitnessRequest)
    (s : AccountId) (wb : EncodedChunkStateWitness) (vs : List AccountId)
    (cp : AccountId)
    (hsig : env.my_signer = some s)
    (hcomp : env.encode_witness msg.state_witness = .ok wb)
    (hassign : env.get_chunk_validator_assignments msg.epoch_id
      msg.chunk_header.shard_id msg.chunk_header.height_created = .ok vs)
    (hprod : env.get_chunk_producer msg.epoch_id msg.chunk_header.height_created
      msg.chunk_header.shard_id = .ok cp)
    (hnd : vs.Nodup) (hmem : s ∈ vs) :
    (handle_distribute_state_witness_request env msg).snd = .ok () ∧
    (∀ batch, NetworkRequests.PartialEncodedStateWitness batch ∈
        (handle_distribute_state_witness_request env msg).fst.sends →
      ∀ pr ∈ batch, pr.fst ≠ s) ∧
    (∃ pw, NetworkRequests.PartialEncodedStateWitnessForward
        (vs.filter (fun v => v != s && v != cp)) pw ∈
          (handle_distribute_state_witness_request env msg).fst.sends ∧
      vs.get? pw.part_ord = some s) ∧
    (handle_distribute_state_witness_request env msg).fst.stores = [] := by
  rw [handle_distribute_eq env msg s wb hsig hcomp]
  obtain ⟨i, hpos⟩ := position_some_of_mem (fun v => v == s) vs s hmem (by simp)
  rw [send_parts_self env msg.epoch_id msg.chunk_header wb s vs i cp hassign
    hpos hprod]
  have hvs : vs.get? i = some s := by
    obtain ⟨a, ha, hpa⟩ := position_get? _ _ _ hpos
    have haq : a = s := by simpa using hpa
    rwa [haq] at ha
  refine ⟨by simp, ?_, ?_, by simp [Effects.append_eq]⟩
  · intro batch hb pr hpr
    simp only [Effects.append_eq, List.append_nil, List.nil_append, List.mem_cons,
      List.mem_singleton, List.not_mem_nil] at hb
    have hbatch : batch = swapRemove (pairParts msg.epoch_id msg.chunk_header
        wb.bytes.length s 0 (vs.zip (encodeParts vs.length wb))) i := by
      rcases hb with h | h
      · exact absurd h (by simp)
      · rcases h with h | h
        · exact (NetworkRequests.PartialEncodedStateWitness.inj h)
        · simp at h
    subst hbatch
    have hfst : pr.fst ∈ (swapRemove (pairParts msg.epoch_id msg.chunk_header
        wb.bytes.length s 0 (vs.zip (encodeParts vs.length wb))) i).map
        Prod.fst := List.mem_map_of_mem Prod.fst hpr
    rw [swapRemove_map, pairParts_map_fst,
      List.map_fst_zip vs _ (by rw [length_encodeParts])] at hfst
    intro hEq
    rw [hEq] at hfst
    exact not_mem_swapRemove_of_nodup vs i s hnd hvs hfst
  · refine ⟨PartialEncodedStateWitness.new msg.epoch_id msg.chunk_header i
      (stripe vs.length i wb.bytes) wb.bytes.length s, ?_, ?_⟩
    · simp [Effects.append_eq]
    · have hvs2 := hvs
      rw [List.get?_eq_getElem?] at hvs2
      simp [PartialEncodedStateWitness.new, hvs2]

/-- Witness for C1's amended claim at the concrete distribution of the
counterexample: the forward request names `[0, 1, 3]` and no batch entry
names validator 2. -/
theorem distribute_self_delivery_witness :
    (handle_distribute_state_witness_request envA msgA).snd = .ok () ∧
    (handle_distribute_state_witness_request envA msgA).fst.stores = [] := by
  obtain ⟨h1, _, _, h4⟩ := distribute_self_delivery envA msgA 2
    { bytes := [9, 8, 7, 6, 5] } [0, 1, 2, 3] 2 rfl rfl rfl rfl
    (by decide) (by decide)
  exact ⟨h1, h4⟩

end PartialWitnessModel
